import Mathlib

/-
  Verification of the natural-language specification of the minimal HTTP/1.0
  static-file server in src/minimal_web_server.c against a shallow Lean
  embedding of that C code.

  Conventions of the embedding:
  * bytes are modelled as Char (the C code works on char);
  * the byte stream receivable from a connected socket, up to the point the
    peer closes it, is a List Char; recv of one byte is taking the head;
  * a C char buffer written left-to-right is modelled as the list of bytes
    written so far (element i of the list is the byte written at index i);
  * the filesystem is a finite map from normalized path-component lists to
    entries (regular file with content, or directory with an st_size), and
    open(2) is lookup after kernel-style resolution of "." and ".." segments;
  * send(2) is modelled by a schedule of per-call outcomes: none is a send
    error (-1), some c means the transport accepts min c n of the n
    requested bytes.
-/

namespace MinimalWebServer

/-- cstrlen l is C strlen on a buffer whose bytes are l: the number of
bytes before the first NUL. -/
def cstrlen : List Char → Nat
  | [] => 0
  | c :: cs => if c = '\x00' then 0 else 1 + cstrlen cs

/-- cstr l is the C string stored in a buffer whose bytes are l: everything
before the first NUL byte. -/
def cstr (l : List Char) : List Char := l.takeWhile (fun c => c != '\x00')

/-- EOL[i] of the C code: the two-byte terminator "\r\n" indexed by the
match state eol_indx (only 0 and 1 are reachable). -/
def eol_char : Nat → Char
  | 0 => '\r'
  | _ => '\n'

/-- Embedding of the loop of read_line (src/minimal_web_server.c lines
86-103).  Arguments: remaining socket bytes, eol_indx, bytes written to
dest_buffer so far.  Returns (C return value, final written bytes):
some r models the return of strlen(dest_buffer) = r after the terminator
was found (the NUL overwrites the '\r'), none models the return 0 taken
when the peer closes before the matcher fires.  Each consumed byte is
written at the next buffer index; the C code never bounds that index. -/
def read_line_go : List Char → Nat → List Char → Option Nat × List Char
  | [], _, buf => (none, buf)
  | b :: rest, i, buf =>
    if b = eol_char i then
      if i + 1 = 2 then
        ((some (cstrlen ((buf ++ [b]).set (buf.length - 1) '\x00'))),
          (buf ++ [b]).set (buf.length - 1) '\x00')
      else read_line_go rest (i + 1) (buf ++ [b])
    else read_line_go rest 0 (buf ++ [b])

/-- read_line on a fresh buffer, eol_indx starting at 0. -/
def read_line (stream : List Char) : Option Nat × List Char :=
  read_line_go stream 0 []

/-- A stream contains the CRLF terminator: some byte '\r' is immediately
followed by '\n'. -/
def hasCRLF : List Char → Bool
  | [] => false
  | [_] => false
  | a :: b :: rest => (a = '\r' && b = '\n') || hasCRLF (b :: rest)

/-- Splitting a path string on '/' into its components (empty components
for repeated or trailing slashes are kept and later dropped). -/
def splitPathAux : List Char → List Char → List (List Char)
  | [], acc => [acc.reverse]
  | c :: cs, acc =>
    if c = '/' then acc.reverse :: splitPathAux cs []
    else splitPathAux cs (c :: acc)

/-- splitPath "./a/b" gives the components ".", "a", "b". -/
def splitPath (p : List Char) : List (List Char) := splitPathAux p []

/-- One step of kernel-style path resolution: empty and "." components are
dropped, ".." pops the previous component (or accumulates when there is
nothing left to pop), anything else is pushed. -/
def normStep (stack : List (List Char)) (c : List Char) : List (List Char) :=
  if c = [] ∨ c = ['.'] then stack
  else if c = ['.', '.'] then
    if stack = [] ∨ stack.getLast? = some ['.', '.'] then stack ++ [['.', '.']]
    else stack.dropLast
  else stack ++ [c]

/-- The canonical component list a path resolves to, as the OS resolves it
inside open(2): "." and ".." segments are interpreted, so the same list of
components names the same filesystem object. -/
def normalizePath (p : List Char) : List (List Char) :=
  (splitPath p).foldl normStep []

/-- A filesystem entry: a regular file with its content, or a directory
with its st_size (fstat reports a size for directories too; read(2) on a
directory file descriptor fails with EISDIR). -/
inductive FsEntry
  | file (content : List Char)
  | dirEntry (size : Nat)
deriving DecidableEq

/-- The filesystem: a finite map from normalized component lists to
entries. -/
abbrev Fs := List (List (List Char) × FsEntry)

/-- open(path, O_RDONLY): the kernel resolves the path ("." and ".."
included) and succeeds exactly when the named object exists — for regular
files and directories alike. -/
def openFs (fs : Fs) (path : List Char) : Option FsEntry :=
  (fs.find? (fun e => e.1 == normalizePath path)).map (fun e => e.2)

/-- get_file_size (src/minimal_web_server.c lines 32-42): fstat's st_size
of the open descriptor; content length for a regular file, the directory's
own size otherwise. -/
def get_file_size : FsEntry → Nat
  | .file c => c.length
  | .dirEntry n => n

/-- substrAt hay needle i: the needle occurs in hay starting at index i. -/
def substrAt (hay needle : List Char) (i : Nat) : Bool :=
  (hay.drop i).take needle.length == needle

/-- C strstr returning the index of the first occurrence of needle in hay,
or none when there is no occurrence. -/
def strstr_idx (hay needle : List Char) : Option Nat :=
  (List.range (hay.length + 1)).find? (substrAt hay needle)

/-- Classification of one request: the C code distinguishes lines with no
" HTTP/" marker (lines 142-144), lines whose prefix is neither "GET " nor
"HEAD " (lines 166-168), and GET/HEAD requests. -/
inductive ReqClass
  | notHttp
  | unknownMethod
  | get
  | head
deriving DecidableEq

/-- The method check of process_request (lines 158-164): strncmp against
"GET " (4 bytes) then "HEAD " (5 bytes) on the line truncated at the
" HTTP/" marker; on a match the url pointer is the remainder. -/
def classify (truncated : List Char) : Option (ReqClass × List Char) :=
  if truncated.take 4 == "GET ".data then some (.get, truncated.drop 4)
  else if truncated.take 5 == "HEAD ".data then some (.head, truncated.drop 5)
  else none

/-- Lines 171-173: a url ending in '/' gets "index.html" appended.  When
the url is empty the C code reads the byte just before it, which is the
method's trailing space (request[3] or request[4]), never '/', so nothing
is appended — modelled by getLast? returning none on the empty url. -/
def resolve_url (url0 : List Char) : List Char :=
  if url0.getLast? == some '/' then url0 ++ "index.html".data else url0

/-- The compiled-in document root, #define WEBROOT "./mws_root". -/
def WEBROOT : List Char := "./mws_root".data

/-- One logical write of the response: str is a send_string call (which
loops over partial sends), raw is the single bare send() call used for the
file body on line 209. -/
inductive SendOp
  | str (s : List Char)
  | raw (s : List Char)
deriving DecidableEq

def status404 : List Char := "HTTP/1.0 404 NOT FOUND\r\n".data
def server404 : List Char := "Server: Minimal Web Server\r\n\r\n".data
def body404a : List Char := "<html><head><title>404 Not Found</title></head>".data
def body404b : List Char := "<body><h1>URL not found</h1></body></html>\r\n".data
def status200 : List Char := "HTTP/1.0 200 OK\r\n".data
def server200 : List Char := "Server: Tiny webserver\r\n\r\n".data

/-- The four send_string calls of the 404 branch (lines 186-189), in
order; all four are made unconditionally, their results are ignored. -/
def sends404 : List SendOp :=
  [.str status404, .str server404, .str body404a, .str body404b]

/-- What the single body send() transmits from the malloc'd buffer: the
file content for a regular file; for a directory read(2) fails with EISDIR
and the buffer stays uninitialized, so st_size junk bytes are sent (no
claim inspects them — modelled as NUL filler). -/
def body_of : FsEntry → List Char
  | .file c => c
  | .dirEntry n => List.replicate n '\x00'

/-- Everything observable about one process_request run. -/
structure ProcOut where
  lineRet : Option Nat
  reqClass : ReqClass
  truncatedLine : Option (List Char)
  target : Option (List Char)
  resourcePath : Option (List Char)
  allocSize : Option Nat
  readCount : Option Nat
  sends : List SendOp
deriving DecidableEq

/-- Lines 171-224 of process_request, after a url was parsed: append
index.html on a trailing slash, concatenate WEBROOT and the url verbatim,
open the result, then branch on open failure/GET/HEAD.  lineLen is the
value of the C variable length (read_line's return), used as the malloc
size in the GET branch (line 203); readCount is the byte count passed to
read() and send() (the file size, line 206/209). -/
def respond_to (cls : ReqClass) (url0 : List Char) (r : Option Nat)
    (truncated : List Char) (fs : Fs) : ProcOut :=
  let url := resolve_url url0
  let resource := WEBROOT ++ url
  match openFs fs resource with
  | none =>
    { lineRet := r, reqClass := cls, truncatedLine := some truncated,
      target := some url0, resourcePath := some resource,
      allocSize := none, readCount := none, sends := sends404 }
  | some entry =>
    match cls with
    | .get =>
      { lineRet := r, reqClass := cls, truncatedLine := some truncated,
        target := some url0, resourcePath := some resource,
        allocSize := some (r.getD 0), readCount := some (get_file_size entry),
        sends := [.str status200, .str server200, .raw (body_of entry)] }
    | _ =>
      { lineRet := r, reqClass := cls, truncatedLine := some truncated,
        target := some url0, resourcePath := some resource,
        allocSize := none, readCount := none,
        sends := [.str status200, .str server200] }

/-- process_request (lines 111-237): read one line into the 500-byte
request buffer (initBuf is the buffer's prior stack contents), log, locate
the " HTTP/" marker with strstr, truncate there, classify the method, and
respond.  The return value of read_line is never checked: the parse
proceeds on whatever the buffer holds. -/
def process_request (initBuf stream : List Char) (fs : Fs) : ProcOut :=
  let rl := read_line stream
  let request := cstr (rl.2 ++ initBuf.drop rl.2.length)
  match strstr_idx request " HTTP/".data with
  | none =>
    { lineRet := rl.1, reqClass := .notHttp, truncatedLine := none,
      target := none, resourcePath := none, allocSize := none,
      readCount := none, sends := [] }
  | some i =>
    let truncated := request.take i
    match classify truncated with
    | none =>
      { lineRet := rl.1, reqClass := .unknownMethod,
        truncatedLine := some truncated, target := none,
        resourcePath := none, allocSize := none, readCount := none,
        sends := [] }
    | some (cls, url0) => respond_to cls url0 rl.1 truncated fs

/-- The all-NUL initial contents of the 500-byte request buffer used by
the concrete evaluations. -/
def initZero : List Char := List.replicate 500 '\x00'

/-- send_string (lines 48-60) against a schedule of send(2) outcomes:
none is a send error (-1, return 0 at once), some c transmits min c n of
the n remaining bytes.  Result: (C return value as Bool, bytes actually
transmitted, remaining schedule); none when the schedule runs out before
the loop finishes (the C code would still be looping). -/
def send_string_run : List (Option Nat) → Nat → Option (Bool × Nat × List (Option Nat))
  | caps, 0 => some (true, 0, caps)
  | [], _ + 1 => none
  | none :: rest, _ + 1 => some (false, 0, rest)
  | some c :: rest, n + 1 =>
    match send_string_run rest (n + 1 - min c (n + 1)) with
    | none => none
    | some (b, t, caps2) => some (b, min c (n + 1) + t, caps2)

/-- Executing the logical writes of a response against a transport
schedule: a str op runs the send_string loop, a raw op is one bare send()
whose result the C code ignores (an error transmits nothing and execution
continues).  Output: per-op transmitted byte chunks. -/
def transmit_ops : List (Option Nat) → List SendOp → List (List Char)
  | _, [] => []
  | caps, SendOp.str s :: rest =>
    match send_string_run caps s.length with
    | none => []
    | some (_, t, caps2) => s.take t :: transmit_ops caps2 rest
  | caps, SendOp.raw s :: rest =>
    match caps with
    | [] => []
    | none :: caps2 => [] :: transmit_ops caps2 rest
    | some c :: caps2 => s.take (min c s.length) :: transmit_ops caps2 rest

/-- What main does before the accept loop. -/
inductive MainOutcome
  | exit1
  | acceptLoop
deriving DecidableEq

/-- The setup sequence of main (lines 264-365) as a function of the
return values of socket, setsockopt, bind and listen.  Faithful to the
source: the bind guard on line 347 compares the bind result against 1,
exactly as written, not against -1. -/
def main_setup (socket_r setsock_r bind_r listen_r : Int) : MainOutcome :=
  if socket_r = -1 then .exit1
  else if setsock_r = -1 then .exit1
  else if bind_r = 1 then .exit1
  else if listen_r = -1 then .exit1
  else .acceptLoop

/-- A path names an object inside the document root exactly when its
canonical component list extends the root's canonical component list. -/
def underRoot (p : List Char) : Bool :=
  (normalizePath p).take (normalizePath WEBROOT).length == normalizePath WEBROOT

/-- On a stream with no carriage return the matcher never leaves state 0 and
never fires: every byte of the stream is consumed and written. -/
theorem read_line_go_no_cr (s : List Char) : ∀ (buf : List Char), '\r' ∉ s →
    read_line_go s 0 buf = (none, buf ++ s) := by
  induction s with
  | nil => intro buf _; simp [read_line_go]
  | cons b rest ih =>
    intro buf h
    have hb : b ≠ '\r' := fun hb => h (hb ▸ List.mem_cons_self b rest)
    have hrest : '\r' ∉ rest := fun hr => h (List.mem_cons_of_mem b hr)
    simp only [read_line_go, eol_char, if_neg hb]
    rw [ih (buf ++ [b]) hrest]
    simp

/-- read_line consumes and writes a whole carriage-return-free stream and
reports that no complete line was found. -/
theorem read_line_no_cr (s : List Char) (h : '\r' ∉ s) :
    read_line s = (none, s) := by
  have e := read_line_go_no_cr s [] h
  simpa [read_line] using e

/-- hasCRLF is monotone under dropping the head byte. -/
theorem hasCRLF_tail (b : Char) (rest : List Char) (h : hasCRLF (b :: rest) = false) :
    hasCRLF rest = false := by
  cases rest with
  | nil => rfl
  | cons c rest2 =>
    simp only [hasCRLF, Bool.or_eq_false_iff] at h
    exact h.2

/-- On a stream with no CRLF byte pair the matcher never fires, whatever
state it is in (state 1 is only ever entered right after a '\r', and the
absence of CRLF then rules out a '\n' at the head): every byte is consumed
and written. -/
theorem read_line_go_no_crlf (s : List Char) : ∀ (buf : List Char) (i : Nat),
    hasCRLF s = false → (i = 0 ∨ (i = 1 ∧ s.head? ≠ some '\n')) →
    read_line_go s i buf = (none, buf ++ s) := by
  induction s with
  | nil => intro buf i _ _; simp [read_line_go]
  | cons b rest ih =>
    intro buf i h hi
    rcases hi with hi0 | ⟨hi1, hhd⟩
    · subst hi0
      by_cases hb : b = '\r'
      · simp only [read_line_go, eol_char, if_pos hb]
        norm_num
        cases rest with
        | nil => simp [read_line_go]
        | cons c rest2 =>
          have hc : c ≠ '\n' := by
            subst hb
            simp only [hasCRLF, Bool.or_eq_false_iff] at h
            intro hc
            subst hc
            simp at h
          rw [ih (buf ++ [b]) 1 (hasCRLF_tail b _ h) (Or.inr ⟨rfl, by simp [hc]⟩)]
          simp
      · simp only [read_line_go, eol_char, if_neg hb]
        rw [ih (buf ++ [b]) 0 (hasCRLF_tail b _ h) (Or.inl rfl)]
        simp
    · subst hi1
      have hb : b ≠ '\n' := by
        intro hb
        subst hb
        simp at hhd
      simp only [read_line_go, eol_char, if_neg hb]
      rw [ih (buf ++ [b]) 0 (hasCRLF_tail b _ h) (Or.inl rfl)]
      simp

/-- cstrlen of a NUL-free list followed by a NUL is the list's length. -/
theorem cstrlen_append_nul (s : List Char) (r : List Char) (h : '\x00' ∉ s) :
    cstrlen (s ++ '\x00' :: r) = s.length := by
  induction s with
  | nil => simp [cstrlen]
  | cons c cs ih =>
    have hc : c ≠ '\x00' := fun hc => h (hc ▸ List.mem_cons_self c cs)
    have hcs : '\x00' ∉ cs := fun hx => h (List.mem_cons_of_mem c hx)
    simp [cstrlen, hc, ih hcs]
    omega

/-- A CRLF whose '\r' is reached in match state 0 terminates the line: the
bytes before it are written followed by the NUL overwriting the '\r', the
'\n' stays in the buffer, and the rest of the stream is not consumed. -/
theorem read_line_go_term (s : List Char) : ∀ (buf rest : List Char), '\r' ∉ s →
    read_line_go (s ++ '\r' :: '\n' :: rest) 0 buf =
      (some (cstrlen (buf ++ s ++ ['\x00', '\n'])), buf ++ s ++ ['\x00', '\n']) := by
  induction s with
  | nil =>
    intro buf rest _
    simp only [List.nil_append, read_line_go, eol_char]
    norm_num
  | cons b bs ih =>
    intro buf rest h
    have hb : b ≠ '\r' := fun hb => h (hb ▸ List.mem_cons_self b bs)
    have hbs : '\r' ∉ bs := fun hr => h (List.mem_cons_of_mem b hr)
    simp only [List.cons_append, read_line_go, eol_char, if_neg hb, List.append_eq]
    rw [ih (buf ++ [b]) rest hbs]
    simp

/-- respond_to reports the class it was given. -/
theorem respond_to_reqClass (cls : ReqClass) (url0 : List Char) (r : Option Nat)
    (t : List Char) (fs : Fs) : (respond_to cls url0 r t fs).reqClass = cls := by
  simp only [respond_to]
  split
  · rfl
  · split <;> rfl

/-- respond_to reports the target it was given. -/
theorem respond_to_target (cls : ReqClass) (url0 : List Char) (r : Option Nat)
    (t : List Char) (fs : Fs) : (respond_to cls url0 r t fs).target = some url0 := by
  simp only [respond_to]
  split
  · rfl
  · split <;> rfl

/-- respond_to reports the truncated line it was given. -/
theorem respond_to_trunc (cls : ReqClass) (url0 : List Char) (r : Option Nat)
    (t : List Char) (fs : Fs) : (respond_to cls url0 r t fs).truncatedLine = some t := by
  simp only [respond_to]
  split
  · rfl
  · split <;> rfl

/-- respond_to passes the read_line result through unchanged. -/
theorem respond_to_lineRet (cls : ReqClass) (url0 : List Char) (r : Option Nat)
    (t : List Char) (fs : Fs) : (respond_to cls url0 r t fs).lineRet = r := by
  simp only [respond_to]
  split
  · rfl
  · split <;> rfl

/-- respond_to records the candidate path root ++ url. -/
theorem respond_to_resourcePath (cls : ReqClass) (url0 : List Char) (r : Option Nat)
    (t : List Char) (fs : Fs) :
    (respond_to cls url0 r t fs).resourcePath = some (WEBROOT ++ resolve_url url0) := by
  simp only [respond_to]
  split
  · rfl
  · split <;> rfl

/-- Every branch of respond_to performs at least one logical write. -/
theorem respond_to_sends_ne_nil (cls : ReqClass) (url0 : List Char) (r : Option Nat)
    (t : List Char) (fs : Fs) : (respond_to cls url0 r t fs).sends ≠ [] := by
  simp only [respond_to]
  split
  · simp [sends404]
  · split <;> simp

/-- When the open of the candidate path succeeds, a GET answer starts with
the 200 status line and the server header. -/
theorem respond_to_found_take2 (cls : ReqClass) (url0 : List Char) (r : Option Nat)
    (t : List Char) (fs : Fs) (e : FsEntry)
    (he : openFs fs (WEBROOT ++ resolve_url url0) = some e) :
    (respond_to cls url0 r t fs).sends.take 2 = [.str status200, .str server200] := by
  simp only [respond_to, he]
  split <;> rfl

/-- Whatever respond_to does, its logical writes are one of the three
full response shapes: the complete 404 answer, or the 200 status line and
server header followed by a body (GET), or the 200 status line and server
header alone (HEAD). -/
theorem respond_to_sends_shape (cls : ReqClass) (url0 : List Char) (r : Option Nat)
    (t : List Char) (fs : Fs) :
    (respond_to cls url0 r t fs).sends = sends404 ∨
    (∃ body, (respond_to cls url0 r t fs).sends =
      [.str status200, .str server200, SendOp.raw body]) ∨
    (respond_to cls url0 r t fs).sends = [.str status200, .str server200] := by
  simp only [respond_to]
  split
  · left; rfl
  · split
    · right; left; exact ⟨_, rfl⟩
    · right; right; rfl

/-- A send_string run that reports failure transmitted strictly fewer
bytes than requested: the error cut the buffer short. -/
theorem send_string_run_lt (caps : List (Option Nat)) (n t : Nat)
    (caps2 : List (Option Nat)) (h : send_string_run caps n = some (false, t, caps2)) :
    t < n := by
  induction caps generalizing n t caps2 with
  | nil =>
    cases n with
    | zero => simp [send_string_run] at h
    | succ m => simp [send_string_run] at h
  | cons c rest ih =>
    cases n with
    | zero => simp [send_string_run] at h
    | succ m =>
      cases c with
      | none =>
        simp [send_string_run] at h
        omega
      | some cc =>
        simp only [send_string_run] at h
        cases he : send_string_run rest (m + 1 - min cc (m + 1)) with
        | none => rw [he] at h; simp at h
        | some trip =>
          obtain ⟨b2, t2, caps3⟩ := trip
          rw [he] at h
          simp at h
          obtain ⟨hb, ht, -⟩ := h
          subst hb
          have := ih (m + 1 - min cc (m + 1)) t2 caps3 he
          have hmin : min cc (m + 1) ≤ m + 1 := Nat.min_le_right _ _
          omega

/-- A classified GET line is exactly the 4-byte prefix "GET " followed by
the target. -/
theorem classify_get (t url0 : List Char) (h : classify t = some (.get, url0)) :
    t = "GET ".data ++ url0 := by
  unfold classify at h
  by_cases h4 : t.take 4 == "GET ".data
  · rw [if_pos h4] at h
    have h4' : t.take 4 = "GET ".data := by exact beq_iff_eq.mp h4
    have hu : url0 = t.drop 4 := by
      injection h with h'; exact (congrArg Prod.snd h').symm
    rw [hu, ← h4', List.take_append_drop]
  · rw [if_neg h4] at h
    by_cases h5 : t.take 5 == "HEAD ".data
    · rw [if_pos h5] at h
      injection h with h'
      exact absurd (congrArg Prod.fst h') (by simp)
    · rw [if_neg h5] at h
      exact absurd h (by simp)

/-- A classified HEAD line is exactly the 5-byte prefix "HEAD " followed by
the target. -/
theorem classify_head (t url0 : List Char) (h : classify t = some (.head, url0)) :
    t = "HEAD ".data ++ url0 := by
  unfold classify at h
  by_cases h4 : t.take 4 == "GET ".data
  · rw [if_pos h4] at h
    injection h with h'
    exact absurd (congrArg Prod.fst h') (by simp)
  · rw [if_neg h4] at h
    by_cases h5 : t.take 5 == "HEAD ".data
    · rw [if_pos h5] at h
      have h5' : t.take 5 = "HEAD ".data := by exact beq_iff_eq.mp h5
      have hu : url0 = t.drop 5 := by
        injection h with h'; exact (congrArg Prod.snd h').symm
      rw [hu, ← h5', List.take_append_drop]
    · rw [if_neg h5] at h
      exact absurd h (by simp)

/-- One parse step of process_request: the run either rejects the line as
not-HTTP, rejects the method as unknown (both with no logical writes), or
hands a classified method and url to the response branch; the read_line
return value is passed through untouched in every case. -/
theorem process_request_shape (initBuf stream : List Char) (fs : Fs) :
    (process_request initBuf stream fs).lineRet = (read_line stream).1 ∧
    (((process_request initBuf stream fs).reqClass = .notHttp ∧
        (process_request initBuf stream fs).sends = []) ∨
     ((process_request initBuf stream fs).reqClass = .unknownMethod ∧
        (process_request initBuf stream fs).sends = []) ∨
     (∃ cls url0 trunc, classify trunc = some (cls, url0) ∧
        process_request initBuf stream fs =
          respond_to cls url0 (read_line stream).1 trunc fs)) := by
  simp only [process_request]
  split
  · exact ⟨rfl, Or.inl ⟨rfl, rfl⟩⟩
  · split
    · exact ⟨rfl, Or.inr (Or.inl ⟨rfl, rfl⟩)⟩
    all_goals
      rename_i hcl
      exact ⟨respond_to_lineRet _ _ _ _ _, Or.inr (Or.inr ⟨_, _, _, hcl, rfl⟩)⟩

/-- C1, counterexample: a stream of 501 bytes with no CRLF.  read_line
does return the no-complete-line result, but it consumes all 501 bytes and
writes one byte per consumed byte at consecutive indices 0..500 — the
caller's destination buffer (char request[500] in process_request) has
valid indices 0..499 only, so the write at index 500 is out of bounds and
more than the claimed N = 500 bytes are consumed: the code does not stop
at the bound. -/
theorem c1_counter :
    (read_line (List.replicate 501 'a')).1 = none ∧
    (read_line (List.replicate 501 'a')).2.length = 501 := by
  have h : '\r' ∉ List.replicate 501 'a' := fun hm =>
    absurd (List.eq_of_mem_replicate hm) (by decide)
  rw [read_line_no_cr _ h]
  exact ⟨rfl, List.length_replicate 501 'a'⟩

/-- C1, amended: read_line enforces no capacity bound at all.  On any
stream containing no CRLF byte pair it loops until the peer closes,
consuming every byte and writing it at the next consecutive buffer index
(so a stream longer than the destination's capacity writes out of
bounds), and only then returns the no-complete-line result. -/
theorem c1_amended (s : List Char) (h : hasCRLF s = false) :
    read_line s = (none, s) := by
  have e := read_line_go_no_crlf s [] 0 h (Or.inl rfl)
  simpa [read_line] using e

/-- Witness for c1_amended at the stream "a\rb", which contains a
carriage return (the matcher visits state 1 on it) but no CRLF. -/
theorem c1_amended_witness :
    read_line ['a', '\r', 'b'] = (none, ['a', '\r', 'b']) :=
  c1_amended ['a', '\r', 'b'] (by decide)

/-- C2, counterexample: the stream "\r\r\n".  The claim says the matcher
resets rather than skips, so the line would be recognized as terminated by
its final "\r\n".  In the code the reset branch consumes the failing byte
without re-matching it: after the first '\r' advances the match index, the
second '\r' fails against '\n', is consumed with the index reset to 0, and
the final '\n' then fails against '\r' — no terminator is found and
read_line hits end of stream returning the no-complete-line result. -/
theorem c2_counter :
    read_line ['\r', '\r', '\n'] = (none, ['\r', '\r', '\n']) := by decide

/-- C2, amended: on a byte that fails to extend the partial match the
match index is reset to 0 but the byte is consumed without being
re-matched, so an overlapping almost-match such as a line ending in
"\r\r\n" is NOT recognized.  A terminator is recognized whenever its '\r'
arrives with the match index at 0: for every line with no carriage return
and no NUL, the following CRLF terminates it, the NUL overwrites the '\r',
the line's length is returned, and nothing after the terminator is
consumed. -/
theorem c2_amended (s rest : List Char) (h1 : '\r' ∉ s) (h2 : '\x00' ∉ s) :
    read_line (s ++ '\r' :: '\n' :: rest) = (some s.length, s ++ ['\x00', '\n']) := by
  have e := read_line_go_term s [] rest h1
  simp only [read_line, List.nil_append] at e ⊢
  rw [e]
  have hlen : cstrlen (s ++ ['\x00', '\n']) = s.length := cstrlen_append_nul s ['\n'] h2
  rw [hlen]

/-- Witness for c2_amended at the concrete line "GET / HTTP/1.0\r\n". -/
theorem c2_amended_witness :
    read_line ("GET / HTTP/1.0".data ++ '\r' :: '\n' :: []) =
      (some ("GET / HTTP/1.0".data.length), "GET / HTTP/1.0".data ++ ['\x00', '\n']) :=
  c2_amended "GET / HTTP/1.0".data [] (by decide) (by decide)

set_option maxRecDepth 10000 in
/-- C3: evaluation of the GET-found branch at the failing input — request
line "GET /f HTTP/1.0\r\n" (line length 15) against a 1000-byte file f
under the document root.  Line 203 of the source allocates malloc(length)
where length is the request-line length (15), yet line 206 read()s and
line 209 send()s file_size = 1000 bytes through that buffer: the response
plan is the 200 status line, the server header and the 1000 content bytes,
but producing it writes 1000 bytes into a 15-byte heap allocation — an
out-of-bounds heap write the claim's "no content omitted, exactly size
bytes" behavior cannot survive. -/
theorem c3_eval :
    (process_request initZero "GET /f HTTP/1.0\r\n".data
        [(["mws_root".data, "f".data], FsEntry.file (List.replicate 1000 'a'))]).allocSize
      = some 15 ∧
    (process_request initZero "GET /f HTTP/1.0\r\n".data
        [(["mws_root".data, "f".data], FsEntry.file (List.replicate 1000 'a'))]).readCount
      = some 1000 ∧
    (process_request initZero "GET /f HTTP/1.0\r\n".data
        [(["mws_root".data, "f".data], FsEntry.file (List.replicate 1000 'a'))]).sends
      = [.str status200, .str server200, .raw (List.replicate 1000 'a')] := by decide

/-- C4: send_string loops over partial sends until everything requested
went out or a send call errors.  For any transport schedule under which
the loop finishes: it returns 1 (true) exactly when all n bytes were
transmitted, and returns 0 (false) only when some send call reported an
error. -/
theorem c4_send_string_spec (caps : List (Option Nat)) (n : Nat) (b : Bool) (t : Nat)
    (caps2 : List (Option Nat)) (h : send_string_run caps n = some (b, t, caps2)) :
    (b = true ↔ t = n) ∧ (b = false → none ∈ caps) := by
  induction caps generalizing n b t caps2 with
  | nil =>
    cases n with
    | zero =>
      simp [send_string_run] at h
      obtain ⟨hb, ht, _⟩ := h
      subst hb; subst ht; simp
    | succ m => simp [send_string_run] at h
  | cons c rest ih =>
    cases n with
    | zero =>
      simp [send_string_run] at h
      obtain ⟨hb, ht, _⟩ := h
      subst hb; subst ht; simp
    | succ m =>
      cases c with
      | none =>
        simp [send_string_run] at h
        obtain ⟨hb, ht, _⟩ := h
        subst hb; subst ht; simp
      | some cc =>
        simp only [send_string_run] at h
        cases he : send_string_run rest (m + 1 - min cc (m + 1)) with
        | none => rw [he] at h; simp at h
        | some trip =>
          obtain ⟨b2, t2, caps3⟩ := trip
          rw [he] at h
          simp at h
          obtain ⟨hb, ht, hc⟩ := h
          have hmin : min cc (m + 1) ≤ m + 1 := Nat.min_le_right _ _
          obtain ⟨ih1, ih2⟩ := ih (m + 1 - min cc (m + 1)) b2 t2 caps3 he
          subst hb
          constructor
          · constructor
            · intro hbt
              have := ih1.mp hbt
              omega
            · intro htn
              apply ih1.mpr
              omega
          · intro hbf
            exact List.mem_cons_of_mem _ (ih2 hbf)

/-- Witness for c4_send_string_spec: a transport accepting 3, then 2, then
up to 9 bytes per call carries a 7-byte buffer in three partial sends,
with success reported and all 7 bytes out. -/
theorem c4_send_string_witness :
    ((true : Bool) = true ↔ 7 = 7) ∧
    ((true : Bool) = false → none ∈ [some 3, some 2, some 9]) :=
  c4_send_string_spec [some 3, some 2, some 9] 7 true 7 [] (by decide)

/-- C5, counterexample: the 404 response for "GET /nope HTTP/1.0\r\n" on
a transport whose first send call errors and then recovers.  The first
logical write (the 404 status line) fails and transmits nothing, yet the
remaining three send_string calls of lines 187-189 run anyway and their
bytes go out in full — the failed write aborts nothing, because
process_request discards every send_string return value. -/
theorem c5_counter :
    (process_request initZero "GET /nope HTTP/1.0\r\n".data []).sends = sends404 ∧
    transmit_ops [none, some 1000, some 1000, some 1000]
        (process_request initZero "GET /nope HTTP/1.0\r\n".data []).sends =
      [[], server404, body404a, body404b] := by decide

/-- C5, amended: when a send call of a logical write errors, send_string
stops sending that buffer — only the strict prefix already accepted by the
earlier calls of its loop is out — and returns the failure signal; but
process_request ignores every send_string return value, so the remainder
of the response is not aborted: the following logical writes are executed
on the remaining transport exactly as if the failure had not happened,
and nothing propagates to the caller (process_request returns nothing). -/
theorem c5_amended (caps caps2 : List (Option Nat)) (s : List Char)
    (rest : List SendOp) (t : Nat)
    (h : send_string_run caps s.length = some (false, t, caps2)) :
    transmit_ops caps (SendOp.str s :: rest) = s.take t :: transmit_ops caps2 rest ∧
    t < s.length := by
  constructor
  · simp only [transmit_ops, h]
  · exact send_string_run_lt caps s.length t caps2 h

/-- Witness for c5_amended: the 404 status line on a transport that
accepts 5 bytes and then errors mid-write — 5 of its 24 bytes go out, and
the next logical write proceeds on the rest of the schedule. -/
theorem c5_amended_witness :
    transmit_ops [some 5, none, some 9] [SendOp.str status404, SendOp.str server404] =
      status404.take 5 :: transmit_ops [some 9] [SendOp.str server404] ∧
    5 < status404.length :=
  c5_amended [some 5, none, some 9] [some 9] status404 [SendOp.str server404] 5 (by decide)

/-- C6, counterexample: the target "/../secret" against a filesystem whose
only entry is a file named secret OUTSIDE the document root (the root has
no entries at all).  The candidate path is the verbatim concatenation
"./mws_root/../secret", which the kernel resolves to ./secret — not a
descendant of ./mws_root — and the server opens it and serves its full
content with a 200 response. -/
theorem c6_counter :
    (process_request initZero "GET /../secret HTTP/1.0\r\n".data
        [(["secret".data], FsEntry.file "top secret".data)]).sends =
      [.str status200, .str server200, .raw "top secret".data] ∧
    (process_request initZero "GET /../secret HTTP/1.0\r\n".data
        [(["secret".data], FsEntry.file "top secret".data)]).resourcePath =
      some "./mws_root/../secret".data ∧
    underRoot "./mws_root/../secret".data = false := by decide

/-- C6, amended: the resolver concatenates document root and target
verbatim with no normalization of ".." segments, so a target containing
"../" resolves outside the document root and, when a file exists there,
the server opens it and serves its content — whatever that content is —
with a 200 response, even though the resolved path is not a descendant of
the document root. -/
theorem c6_amended (content : List Char) :
    (process_request initZero "GET /../secret HTTP/1.0\r\n".data
        [(["secret".data], FsEntry.file content)]).sends =
      [.str status200, .str server200, .raw content] ∧
    underRoot "./mws_root/../secret".data = false :=
  ⟨rfl, rfl⟩

/-- C7, counterexample: the raw line "GET  HTTP/1.0" (two spaces).  strstr
finds the first " HTTP/" right after "GET ", the line is truncated to
"GET ", the strncmp prefix check matches, and the parser produces method
GET with an empty target — violating the invariant that the target is
non-empty whenever the method is not UNKNOWN. -/
theorem c7_counter :
    (process_request initZero "GET  HTTP/1.0\r\n".data []).reqClass = ReqClass.get ∧
    (process_request initZero "GET  HTTP/1.0\r\n".data []).target = some [] := by decide

/-- C7, amended: when the classified method is GET (resp. HEAD) the
truncated request line is exactly the prefix "GET " (resp. "HEAD ")
followed by the target, which is therefore empty exactly when the
" HTTP/" marker immediately follows the method prefix — as in
"GET  HTTP/1.0" — and non-empty otherwise. -/
theorem c7_amended (initBuf stream : List Char) (fs : Fs) :
    ((process_request initBuf stream fs).reqClass = .get →
      ∃ t, (process_request initBuf stream fs).target = some t ∧
        (process_request initBuf stream fs).truncatedLine = some ("GET ".data ++ t)) ∧
    ((process_request initBuf stream fs).reqClass = .head →
      ∃ t, (process_request initBuf stream fs).target = some t ∧
        (process_request initBuf stream fs).truncatedLine = some ("HEAD ".data ++ t)) := by
  obtain ⟨-, hshape⟩ := process_request_shape initBuf stream fs
  rcases hshape with ⟨hc, -⟩ | ⟨hc, -⟩ | ⟨cls, url0, trunc, hcl, heq⟩
  · rw [hc]; constructor <;> (intro h; simp at h)
  · rw [hc]; constructor <;> (intro h; simp at h)
  · rw [heq, respond_to_reqClass, respond_to_target, respond_to_trunc]
    constructor
    · intro h
      subst h
      exact ⟨url0, rfl, by rw [← classify_get trunc url0 hcl]⟩
    · intro h
      subst h
      exact ⟨url0, rfl, by rw [← classify_head trunc url0 hcl]⟩

/-- Witness for c7_amended at the counterexample line "GET  HTTP/1.0",
where the produced target is the empty byte sequence. -/
theorem c7_amended_witness :
    ∃ t, (process_request initZero "GET  HTTP/1.0\r\n".data []).target = some t ∧
      (process_request initZero "GET  HTTP/1.0\r\n".data []).truncatedLine =
        some ("GET ".data ++ t) :=
  (c7_amended initZero "GET  HTTP/1.0\r\n".data []).1 (by decide)

/-- C8, counterexample: the peer sends "GET /x HTTP/1.0" and closes with
no CRLF ever arriving.  read_line duly returns the no-complete-line
result (0), but process_request never looks at it: it parses the buffer
contents anyway, classifies the incomplete request as a GET, resolves the
path and answers with the full 404 response — it does go on to parse,
resolve and answer. -/
theorem c8_counter :
    (process_request initZero "GET /x HTTP/1.0".data []).lineRet = none ∧
    (process_request initZero "GET /x HTTP/1.0".data []).reqClass = ReqClass.get ∧
    (process_request initZero "GET /x HTTP/1.0".data []).sends = sends404 := by decide

/-- C8, amended: on every connection where read_line finds no terminator
it returns the no-complete-line result, but the caller never checks it:
process_request parses whatever the buffer holds, and whenever those
bytes classify as a GET or HEAD request it resolves the path and answers
with a full response based on the incomplete buffer contents — the
complete 404 shape, or the 200 status line and server header with a body
(GET) or without one (HEAD). -/
theorem c8_amended (initBuf stream : List Char) (fs : Fs)
    (h : (read_line stream).1 = none)
    (hcls : (process_request initBuf stream fs).reqClass = .get ∨
            (process_request initBuf stream fs).reqClass = .head) :
    (process_request initBuf stream fs).lineRet = none ∧
    ((process_request initBuf stream fs).sends = sends404 ∨
     (∃ body, (process_request initBuf stream fs).sends =
        [.str status200, .str server200, SendOp.raw body]) ∨
     (process_request initBuf stream fs).sends = [.str status200, .str server200]) := by
  obtain ⟨hline, hshape⟩ := process_request_shape initBuf stream fs
  refine ⟨by rw [hline, h], ?_⟩
  rcases hshape with ⟨hc, -⟩ | ⟨hc, -⟩ | ⟨cls, url0, trunc, -, heq⟩
  · rw [hc] at hcls; rcases hcls with h1 | h1 <;> simp at h1
  · rw [hc] at hcls; rcases hcls with h1 | h1 <;> simp at h1
  · rw [heq]
    exact respond_to_sends_shape cls url0 _ trunc fs

/-- Witness for c8_amended at the truncated stream "GET /x HTTP/1.0"
(closed before any CRLF), answered with the full 404 response. -/
theorem c8_amended_witness :
    (process_request initZero "GET /x HTTP/1.0".data []).lineRet = none ∧
    ((process_request initZero "GET /x HTTP/1.0".data []).sends = sends404 ∨
     (∃ body, (process_request initZero "GET /x HTTP/1.0".data []).sends =
        [.str status200, .str server200, SendOp.raw body]) ∨
     (process_request initZero "GET /x HTTP/1.0".data []).sends =
        [.str status200, .str server200]) :=
  c8_amended initZero "GET /x HTTP/1.0".data [] (by decide) (Or.inl (by decide))

/-- C9: evaluation of main's setup at the failing input bind = -1 (the
value bind(2) actually returns on failure) with socket, setsockopt and
listen succeeding.  Line 347 guards the bind error exit with a comparison
against 1 — a value bind never returns — instead of -1, so the error
branch (with its "Failed to Bind Socket to Host Address" message) is dead
and the process proceeds to the accept loop despite the bind failure,
instead of terminating with a nonzero status as the claim requires; the
listen guard on line 362 does compare against -1 and works. -/
theorem c9_eval :
    main_setup 3 0 (-1) 0 = MainOutcome.acceptLoop ∧
    main_setup 3 0 0 (-1) = MainOutcome.exit1 := by decide

/-- C10: existence is decided solely by open(path, O_RDONLY) succeeding,
and open succeeds on directories: every GET whose resolved resource is an
existing directory under the document root is answered with the 200 status
line and the server header (the 404 shape is not used), even though no
regular file is served. -/
theorem c10_dir_served (initBuf stream : List Char) (fs : Fs) (p : List Char) (sz : Nat)
    (h1 : (process_request initBuf stream fs).reqClass = .get)
    (h2 : (process_request initBuf stream fs).resourcePath = some p)
    (h3 : openFs fs p = some (.dirEntry sz)) :
    (process_request initBuf stream fs).sends.take 2 = [.str status200, .str server200] := by
  obtain ⟨-, hshape⟩ := process_request_shape initBuf stream fs
  rcases hshape with ⟨hc, -⟩ | ⟨hc, -⟩ | ⟨cls, url0, trunc, -, heq⟩
  · rw [h1] at hc; simp at hc
  · rw [h1] at hc; simp at hc
  · rw [heq] at h2 ⊢
    rw [respond_to_resourcePath] at h2
    injection h2 with h2'
    rw [← h2'] at h3
    exact respond_to_found_take2 _ _ _ _ _ _ h3

/-- Witness for c10_dir_served: "GET /somedir HTTP/1.0\r\n" against a
filesystem where mws_root/somedir is a directory (no trailing slash, so no
index.html is appended) — answered 200. -/
theorem c10_dir_witness :
    (process_request initZero "GET /somedir HTTP/1.0\r\n".data
        [(["mws_root".data, "somedir".data], FsEntry.dirEntry 4096)]).sends.take 2 =
      [.str status200, .str server200] :=
  c10_dir_served initZero "GET /somedir HTTP/1.0\r\n".data
    [(["mws_root".data, "somedir".data], FsEntry.dirEntry 4096)]
    "./mws_root/somedir".data 4096 (by decide) (by decide) (by decide)

end MinimalWebServer
